import Mathlib

/-!
Verification of the tool-calling orchestration loop of this repository.

The two source modules are `chat_with_react_agent.py` (a ReAct loop that
executes every tool call of each assistant turn, bounded by `max_iterations`)
and `chat_with_pure_tool.py` (a single-round variant that executes at most the
first tool call of the first response).

Modelling conventions:
- Python values decoded from JSON are the inductive `Json` type; a Python dict
  literal is `Json.obj`, Python `None` is `Json.null`.
- A Python exception propagating out of a function is `Except.error` carrying a
  `PyError`; normal return is `Except.ok`.
- The OpenAI chat-completion client is an external collaborator; it is a
  parameter `gateway : Nat → ResponseMessage` giving the response to the n-th
  gateway call of the run (so universal statements quantify over every possible
  sequence of gateway responses).
- `requests.get` is a parameter `http : String → HttpResponse`; the
  `response.json()` decoding result is the `body` field.
- The wire form of tool-call arguments together with `json.loads` is folded
  into a structured `Json` payload; `json.dumps` is the serializer `Json.dumps`
  (string escaping is not modelled; every string the claims touch is
  escape-free).
- The caller-supplied `messages` list is mutated in place by the source (every
  write is a `messages.append(...)` on the parameter, never a rebinding), so
  the embedding threads it through `LoopState.messages`; the field
  `LoopState.appended` additionally records, in order, the messages appended
  during the run.
-/

/-- A JSON value, doubling as the model of a Python value decoded by
`response.json()` / `json.loads` (dict, list, str, int, bool, None). -/
inductive Json where
  | null : Json
  | bool : Bool → Json
  | num : Int → Json
  | str : String → Json
  | arr : List Json → Json
  | obj : List (String × Json) → Json

/-- The Python type name of a decoded JSON value, as it appears in an
AttributeError message. -/
def Json.pyType : Json → String
  | .null => "NoneType"
  | .bool _ => "bool"
  | .num _ => "int"
  | .str _ => "str"
  | .arr _ => "list"
  | .obj _ => "dict"

/-- A Python exception propagating out of the orchestration code. -/
inductive PyError where
  | keyError (key : String)
  | attributeError (typeName : String)
  | typeError (message : String)
deriving DecidableEq

/-- Python attribute lookup `x.map` on a value decoded from JSON. Decoded
values are of Python type dict, list, str, int, bool or NoneType; none of
these types defines an attribute `map`, so the lookup raises AttributeError
naming the type. -/
def Json.pyAttrMap : Json → Except PyError Json
  | .null => .error (.attributeError "NoneType")
  | .bool _ => .error (.attributeError "bool")
  | .num _ => .error (.attributeError "int")
  | .str _ => .error (.attributeError "str")
  | .arr _ => .error (.attributeError "list")
  | .obj _ => .error (.attributeError "dict")

/-- Python `data.get(key)` where `data` was decoded from JSON: on a dict it
returns the stored value, or None when the key is missing; on every other
decoded type the attribute lookup `data.get` raises AttributeError. -/
def Json.pyDictGet : Json → String → Except PyError Json
  | .obj fields, key => .ok ((fields.lookup key).getD .null)
  | j, _ => .error (.attributeError j.pyType)

mutual
/-- `json.dumps` on a decoded value (default separators; escaping of special
characters inside strings is not modelled). -/
def Json.dumps : Json → String
  | .null => "null"
  | .bool true => "true"
  | .bool false => "false"
  | .num n => toString n
  | .str s => "\"" ++ s ++ "\""
  | .arr xs => "[" ++ Json.dumpsArr xs ++ "]"
  | .obj fields => "\x7b" ++ Json.dumpsObj fields ++ "\x7d"

/-- Comma-separated serialization of a JSON array body. -/
def Json.dumpsArr : List Json → String
  | [] => ""
  | [x] => Json.dumps x
  | x :: xs => Json.dumps x ++ ", " ++ Json.dumpsArr xs

/-- Comma-separated serialization of a JSON object body. -/
def Json.dumpsObj : List (String × Json) → String
  | [] => ""
  | [(k, v)] => "\"" ++ k ++ "\": " ++ Json.dumps v
  | (k, v) :: fields => "\"" ++ k ++ "\": " ++ Json.dumps v ++ ", " ++ Json.dumpsObj fields
end

/-- The result of `requests.get`: the HTTP status code and the JSON value
that `response.json()` would decode from the body. -/
structure HttpResponse where
  status_code : Nat
  body : Json

/-- `tool_call.function`: the requested tool name and its argument payload
(the structured value `json.loads(tool_call.function.arguments)` yields). -/
structure ToolCallFunction where
  name : String
  arguments : Json

/-- One tool-invocation request of an assistant turn. The constant
discriminator field `"type": "function"` is kept for fidelity to the wire
format. -/
structure ToolCall where
  id : String
  type : String := "function"
  function : ToolCallFunction

/-- `response.choices[0].message`: free text (possibly None) plus the list of
tool-invocation requests; the API `tool_calls = None` is the empty list (both
are falsy in the source truth tests). -/
structure ResponseMessage where
  content : Option String
  tool_calls : List ToolCall

/-- One entry of the `messages` transcript list, modelling a Python dict.
The outer `Option` of a field is key presence (`none` = the key is absent
from the dict); for `content` the inner `Option` is Python None vs str. -/
structure Message where
  role : String
  content : Option (Option String) := none
  tool_calls : Option (List ToolCall) := none
  tool_call_id : Option String := none
  name : Option String := none

/-- Tool function `get_name_for_day(date)` — defined identically in
`chat_with_react_agent.py` and `chat_with_pure_tool.py`. On HTTP 200 it reads
`data.get("name")` from the decoded body (which raises AttributeError when
the body is not a dict); on any other status it returns the structured value
with the literal marker string instead of raising. -/
def get_name_for_day (http : String → HttpResponse) (date : String) :
    Except PyError Json :=
  let response := http ("https://svatkyapi.cz/api/day/" ++ date)
  if response.status_code = 200 then do
    let data := response.body
    let name ← data.pyDictGet "name"
    return .obj [("date", .str date), ("name", name)]
  else
    return .obj [("date", .str date), ("name", .str "Error fetching data")]

/-- Tool function `get_all_info_about_day(date)` of `chat_with_react_agent.py`:
embeds the whole decoded body on HTTP 200, the marker string otherwise. -/
def get_all_info_about_day (http : String → HttpResponse) (date : String) :
    Except PyError Json :=
  let response := http ("https://svatkyapi.cz/api/day/" ++ date)
  if response.status_code = 200 then do
    let data := response.body
    return .obj [("date", .str date), ("data", data)]
  else
    return .obj [("date", .str date), ("data", .str "Error fetching data")]

/-- Tool function `get_names_for_week(date)` of `chat_with_react_agent.py`.
On HTTP 200 the source evaluates `data.map(lambda day: ...)`: an attribute
lookup of `map` on the decoded body, which raises AttributeError for every
type `response.json()` can produce (in particular `list`, the type this
endpoint returns), so the code after the lookup is unreachable. Only the
non-200 branch returns normally. -/
def get_names_for_week (http : String → HttpResponse) (date : String) :
    Except PyError Json :=
  let response := http ("https://svatkyapi.cz/api/week/" ++ date)
  if response.status_code = 200 then do
    let data := response.body
    let weekData ← data.pyAttrMap
    return .obj [("date", .str date), ("weekData", weekData)]
  else
    return .obj [("date", .str date), ("weekData", .str "Error fetching data")]

/-- The keyword splat `f(**function_args)` for a tool whose Python signature
is the single parameter `date` (each source schema declares
`required: ["date"]` with a string value). The call binds exactly when the
decoded argument object has precisely the key `"date"`; any other shape of
keyword dictionary raises TypeError. (Python would accept a non-string value
and coerce it inside the f-string; the model folds that case into TypeError,
since no behavior under study depends on it.) -/
def callWithDateKwarg (f : String → Except PyError Json) :
    Json → Except PyError Json
  | .obj [("date", .str date)] => f date
  | _ => .error (.typeError "unexpected arguments for parameter date")

/-- The dict `available_functions` of `chat_with_react_agent.py`, as an
association list from tool name to executable capability. -/
def available_functions (http : String → HttpResponse) :
    List (String × (Json → Except PyError Json)) :=
  [ ("get_name_for_day", callWithDateKwarg (get_name_for_day http)),
    ("get_all_info_about_day", callWithDateKwarg (get_all_info_about_day http)),
    ("get_names_for_week", callWithDateKwarg (get_names_for_week http)) ]

/-- The running state of one orchestration run: the caller-supplied
`messages` list (mutated in place by the source, threaded here), the
instrumentation record of messages appended by this run in order, and the
counts of gateway calls and capability invocations performed. -/
structure LoopState where
  messages : List Message
  appended : List Message
  gatewayCalls : Nat
  toolExecutions : Nat

/-- `messages.append(msg)`: the single mutation the source applies to the
transcript. -/
def LoopState.push (s : LoopState) (msg : Message) : LoopState :=
  { s with messages := s.messages ++ [msg], appended := s.appended ++ [msg] }

/-- The outcome of `ReactAgent.run`: the returned value (`str | None`,
so `Option String`) or the Python exception that propagated, together with
the final state. -/
structure RunOutcome where
  result : Except PyError (Option String)
  state : LoopState

/-- The literal string `ReactAgent.run` returns when the iteration bound is
reached without a final answer. -/
def maxIterationsError : String :=
  "Error: Maximum iterations reached without getting a final answer."

/-- The assistant message `ReactAgent.run` appends when the response carries
tool calls: role, the content key (present even when the value is None), and
the full list of requests rebuilt field by field by the source comprehension. -/
def assistantToolCallsMessage (response_message : ResponseMessage) : Message :=
  { role := "assistant",
    content := some response_message.content,
    tool_calls := some (response_message.tool_calls.map (fun tc =>
      { id := tc.id, type := "function",
        function := { name := tc.function.name,
                      arguments := tc.function.arguments } })) }

/-- The `tool` message appended after one capability execution. -/
def toolResultMessage (tool_id function_name : String) (function_response : Json) :
    Message :=
  { role := "tool",
    tool_call_id := some tool_id,
    name := some function_name,
    content := some (some (Json.dumps function_response)) }

/-- The body of the `for tool_call in response_message.tool_calls` loop of
`ReactAgent.run` (lines 168-189): for each request in emission order,
`available_functions[function_name]` (a dict index, raising KeyError when the
name is absent), then the call with the decoded arguments (whose exception,
if any, propagates), then the append of the serialized result tagged with the
call id. An exception aborts the traversal with the state reached so far. -/
def execToolCalls (http : String → HttpResponse) :
    List ToolCall → LoopState → Except PyError Unit × LoopState
  | [], s => (.ok (), s)
  | tool_call :: rest, s =>
    let function_name := tool_call.function.name
    let function_args := tool_call.function.arguments
    let tool_id := tool_call.id
    match (available_functions http).lookup function_name with
    | none => (.error (.keyError function_name), s)
    | some function_to_call =>
      match function_to_call function_args with
      | .error e => (.error e, { s with toolExecutions := s.toolExecutions + 1 })
      | .ok function_response =>
        execToolCalls http rest
          (({ s with toolExecutions := s.toolExecutions + 1 }).push
            (toolResultMessage tool_id function_name function_response))

/-- The agent of `chat_with_react_agent.py`: a model name and the iteration
bound (`max_iterations = 10`). -/
structure ReactAgent where
  model : String := "gpt-4o"
  max_iterations : Nat := 10

/-- The `while iteration < self.max_iterations` loop of `ReactAgent.run`,
with `fuel = max_iterations - iteration` as the structural measure. Each
round calls the gateway (indexed by the number of calls made so far), then
either appends the assistant-with-tool-calls message and executes every
request, or appends the final assistant message and returns its content.
Exhausted fuel returns the literal iteration-limit string. -/
def ReactAgent.runAux (http : String → HttpResponse)
    (gateway : Nat → ResponseMessage) :
    Nat → LoopState → RunOutcome
  | 0, s => ⟨.ok (some maxIterationsError), s⟩
  | fuel + 1, s =>
    let response_message := gateway s.gatewayCalls
    let s := { s with gatewayCalls := s.gatewayCalls + 1 }
    match response_message.tool_calls with
    | _ :: _ =>
      let s := s.push (assistantToolCallsMessage response_message)
      match execToolCalls http response_message.tool_calls s with
      | (.error e, s) => ⟨.error e, s⟩
      | (.ok _, s) => ReactAgent.runAux http gateway fuel s
    | [] =>
      let final_content := response_message.content
      let s := s.push { role := "assistant", content := some final_content }
      ⟨.ok final_content, s⟩

/-- `ReactAgent.run(messages)`: run the ReAct loop on the caller-supplied
transcript until a text-only response, an exception, or the iteration bound. -/
def ReactAgent.run (agent : ReactAgent) (http : String → HttpResponse)
    (gateway : Nat → ResponseMessage) (messages : List Message) : RunOutcome :=
  ReactAgent.runAux http gateway agent.max_iterations ⟨messages, [], 0, 0⟩

namespace PureTool

/-- The dict `available_functions` of `chat_with_pure_tool.py`: the single
registered tool. -/
def available_functions (http : String → HttpResponse) :
    List (String × (Json → Except PyError Json)) :=
  [ ("get_name_for_day", callWithDateKwarg (get_name_for_day http)) ]

/-- The assistant message the pure-tool variant appends before the tool
result: it has no `content` key at all, and its `tool_calls` list holds only
the single extracted request, rebuilt field by field. -/
def firstCallAssistantMessage (tool_call : ToolCall) : Message :=
  { role := "assistant",
    tool_calls := some
      [{ id := tool_call.id, type := "function",
         function := { name := tool_call.function.name,
                       arguments := tool_call.function.arguments } }] }

/-- `get_completion_from_messages(messages)` of `chat_with_pure_tool.py`.
One gateway call; when the response carries tool calls, only
`tool_calls[0]` is extracted and executed (the source indexes element 0 and
never looks at the rest), an assistant message holding just that one rebuilt
request (and no `content` key) plus the tool result are appended, and the
second gateway response is returned as-is; otherwise the first response is
returned. The returned value is the whole response message object. -/
def get_completion_from_messages (http : String → HttpResponse)
    (gateway : Nat → ResponseMessage) (messages : List Message) :
    Except PyError ResponseMessage × LoopState :=
  let s : LoopState := ⟨messages, [], 0, 0⟩
  let response_message := gateway s.gatewayCalls
  let s := { s with gatewayCalls := s.gatewayCalls + 1 }
  match response_message.tool_calls with
  | tool_call :: _ =>
    let function_name := tool_call.function.name
    let function_args := tool_call.function.arguments
    let tool_id := tool_call.id
    match (available_functions http).lookup function_name with
    | none => (.error (.keyError function_name), s)
    | some function_to_call =>
      match function_to_call function_args with
      | .error e => (.error e, { s with toolExecutions := s.toolExecutions + 1 })
      | .ok function_response =>
        let s := { s with toolExecutions := s.toolExecutions + 1 }
        let s := s.push (firstCallAssistantMessage tool_call)
        let s := s.push (toolResultMessage tool_id function_name function_response)
        let second_response := gateway s.gatewayCalls
        let s := { s with gatewayCalls := s.gatewayCalls + 1 }
        (.ok second_response, s)
  | [] => (.ok response_message, s)

end PureTool

/-! ### Step lemmas

Unfolding equations for each branch of the tool-execution traversal and of
the loop body, so later proofs can rewrite by hypothesis instead of fighting
nested `match` terms. -/

/-- The state the loop holds when it enters the tool phase of an iteration:
the gateway-call counter is advanced and the assistant message carrying the
requests has been appended. -/
def afterAssistantMessage (s : LoopState) (response_message : ResponseMessage) :
    LoopState :=
  ({ s with gatewayCalls := s.gatewayCalls + 1 }).push
    (assistantToolCallsMessage response_message)

theorem execToolCalls_nil (http : String → HttpResponse) (s : LoopState) :
    execToolCalls http [] s = (.ok (), s) := rfl

theorem execToolCalls_cons_unknown (http : String → HttpResponse)
    (tc : ToolCall) (rest : List ToolCall) (s : LoopState)
    (h : (available_functions http).lookup tc.function.name = none) :
    execToolCalls http (tc :: rest) s =
      (.error (.keyError tc.function.name), s) := by
  simp [execToolCalls, h]

theorem execToolCalls_cons_raise (http : String → HttpResponse)
    (tc : ToolCall) (rest : List ToolCall) (s : LoopState)
    (f : Json → Except PyError Json) (e : PyError)
    (h1 : (available_functions http).lookup tc.function.name = some f)
    (h2 : f tc.function.arguments = .error e) :
    execToolCalls http (tc :: rest) s =
      (.error e, { s with toolExecutions := s.toolExecutions + 1 }) := by
  simp [execToolCalls, h1, h2]

theorem execToolCalls_cons_ok (http : String → HttpResponse)
    (tc : ToolCall) (rest : List ToolCall) (s : LoopState)
    (f : Json → Except PyError Json) (v : Json)
    (h1 : (available_functions http).lookup tc.function.name = some f)
    (h2 : f tc.function.arguments = .ok v) :
    execToolCalls http (tc :: rest) s =
      execToolCalls http rest
        (({ s with toolExecutions := s.toolExecutions + 1 }).push
          (toolResultMessage tc.id tc.function.name v)) := by
  simp [execToolCalls, h1, h2]

theorem runAux_zero (http : String → HttpResponse)
    (gateway : Nat → ResponseMessage) (s : LoopState) :
    ReactAgent.runAux http gateway 0 s = ⟨.ok (some maxIterationsError), s⟩ := rfl

theorem runAux_succ_text (http : String → HttpResponse)
    (gateway : Nat → ResponseMessage) (fuel : Nat) (s : LoopState)
    (h : (gateway s.gatewayCalls).tool_calls = []) :
    ReactAgent.runAux http gateway (fuel + 1) s =
      ⟨.ok (gateway s.gatewayCalls).content,
        ({ s with gatewayCalls := s.gatewayCalls + 1 }).push
          { role := "assistant", content := some (gateway s.gatewayCalls).content }⟩ := by
  simp [ReactAgent.runAux, h]

theorem runAux_succ_tools_raise (http : String → HttpResponse)
    (gateway : Nat → ResponseMessage) (fuel : Nat) (s s2 : LoopState)
    (tc : ToolCall) (rest : List ToolCall) (e : PyError)
    (h : (gateway s.gatewayCalls).tool_calls = tc :: rest)
    (he : execToolCalls http (tc :: rest)
        (afterAssistantMessage s (gateway s.gatewayCalls)) = (.error e, s2)) :
    ReactAgent.runAux http gateway (fuel + 1) s = ⟨.error e, s2⟩ := by
  simp only [ReactAgent.runAux, h, afterAssistantMessage] at he ⊢
  rw [he]

theorem runAux_succ_tools_ok (http : String → HttpResponse)
    (gateway : Nat → ResponseMessage) (fuel : Nat) (s s2 : LoopState)
    (tc : ToolCall) (rest : List ToolCall)
    (h : (gateway s.gatewayCalls).tool_calls = tc :: rest)
    (he : execToolCalls http (tc :: rest)
        (afterAssistantMessage s (gateway s.gatewayCalls)) = (.ok (), s2)) :
    ReactAgent.runAux http gateway (fuel + 1) s =
      ReactAgent.runAux http gateway fuel s2 := by
  simp only [ReactAgent.runAux, h, afterAssistantMessage] at he ⊢
  rw [he]

/-! ### Structural lemmas about the loop state -/

/-- The tool-execution phase only appends: the final `messages` and
`appended` grow by one common suffix, and the gateway-call count is
untouched. -/
theorem execToolCalls_extends (http : String → HttpResponse)
    (tcs : List ToolCall) (s : LoopState) :
    ∃ extra,
      (execToolCalls http tcs s).2.messages = s.messages ++ extra ∧
      (execToolCalls http tcs s).2.appended = s.appended ++ extra ∧
      (execToolCalls http tcs s).2.gatewayCalls = s.gatewayCalls := by
  induction tcs generalizing s with
  | nil => exact ⟨[], by simp [execToolCalls_nil]⟩
  | cons tc rest ih =>
    cases h1 : (available_functions http).lookup tc.function.name with
    | none => exact ⟨[], by rw [execToolCalls_cons_unknown http tc rest s h1]; simp⟩
    | some f =>
      cases h2 : f tc.function.arguments with
      | error e =>
        exact ⟨[], by rw [execToolCalls_cons_raise http tc rest s f e h1 h2]; simp⟩
      | ok v =>
        rw [execToolCalls_cons_ok http tc rest s f v h1 h2]
        obtain ⟨extra, hm, ha, hg⟩ :=
          ih (({ s with toolExecutions := s.toolExecutions + 1 }).push
            (toolResultMessage tc.id tc.function.name v))
        refine ⟨toolResultMessage tc.id tc.function.name v :: extra, ?_, ?_, ?_⟩
        · rw [hm]; simp [LoopState.push]
        · rw [ha]; simp [LoopState.push]
        · rw [hg]; simp [LoopState.push]

/-- The loop only appends: whatever transcript an iteration starts from is a
prefix of the transcript at every later point, messages and appended growing
by a common suffix. -/
theorem runAux_extends (http : String → HttpResponse)
    (gateway : Nat → ResponseMessage) (fuel : Nat) (s : LoopState) :
    ∃ extra,
      (ReactAgent.runAux http gateway fuel s).state.messages =
        s.messages ++ extra ∧
      (ReactAgent.runAux http gateway fuel s).state.appended =
        s.appended ++ extra := by
  induction fuel generalizing s with
  | zero => exact ⟨[], by simp [runAux_zero]⟩
  | succ fuel ih =>
    cases hc : (gateway s.gatewayCalls).tool_calls with
    | nil =>
      refine ⟨[{ role := "assistant", content := some (gateway s.gatewayCalls).content }],
        ?_, ?_⟩ <;>
        rw [runAux_succ_text http gateway fuel s hc] <;> simp [LoopState.push]
    | cons tc rest =>
      obtain ⟨e1, hm1, ha1, _⟩ := execToolCalls_extends http (tc :: rest)
        (afterAssistantMessage s (gateway s.gatewayCalls))
      cases hr : execToolCalls http (tc :: rest)
          (afterAssistantMessage s (gateway s.gatewayCalls)) with
      | mk r s2 =>
        rw [hr] at hm1 ha1
        simp only [afterAssistantMessage, LoopState.push] at hm1 ha1
        cases r with
        | error e =>
          rw [runAux_succ_tools_raise http gateway fuel s s2 tc rest e hc hr]
          exact ⟨assistantToolCallsMessage (gateway s.gatewayCalls) :: e1,
            by simpa using hm1, by simpa using ha1⟩
        | ok u =>
          cases u
          rw [runAux_succ_tools_ok http gateway fuel s s2 tc rest hc hr]
          obtain ⟨e2, hm2, ha2⟩ := ih s2
          refine ⟨assistantToolCallsMessage (gateway s.gatewayCalls) :: (e1 ++ e2),
            ?_, ?_⟩
          · rw [hm2, hm1]; simp
          · rw [ha2, ha1]; simp

/-- Each loop iteration performs exactly one gateway call, so the count grows
by at most the remaining fuel. -/
theorem runAux_gatewayCalls_le (http : String → HttpResponse)
    (gateway : Nat → ResponseMessage) (fuel : Nat) (s : LoopState) :
    (ReactAgent.runAux http gateway fuel s).state.gatewayCalls ≤
      s.gatewayCalls + fuel := by
  induction fuel generalizing s with
  | zero => simp [runAux_zero]
  | succ fuel ih =>
    cases hc : (gateway s.gatewayCalls).tool_calls with
    | nil =>
      rw [runAux_succ_text http gateway fuel s hc]
      simp [LoopState.push]
    | cons tc rest =>
      obtain ⟨_, _, _, hg⟩ := execToolCalls_extends http (tc :: rest)
        (afterAssistantMessage s (gateway s.gatewayCalls))
      cases hr : execToolCalls http (tc :: rest)
          (afterAssistantMessage s (gateway s.gatewayCalls)) with
      | mk r s2 =>
        rw [hr] at hg
        simp only [afterAssistantMessage, LoopState.push] at hg
        cases r with
        | error e =>
          rw [runAux_succ_tools_raise http gateway fuel s s2 tc rest e hc hr]
          show s2.gatewayCalls ≤ s.gatewayCalls + (fuel + 1)
          omega
        | ok u =>
          cases u
          rw [runAux_succ_tools_ok http gateway fuel s s2 tc rest hc hr]
          have := ih s2
          omega

/-- When every request of a turn names a registered tool and its execution
returns normally with value `res tc`, the tool phase succeeds, appends
exactly one `tool` message per request — tagged with its call id, carrying
the serialized result — in emission order, and counts one execution per
request. -/
theorem execToolCalls_all_ok (http : String → HttpResponse)
    (tcs : List ToolCall) (s : LoopState) (res : ToolCall → Json)
    (h : ∀ tc ∈ tcs, ∃ f,
      (available_functions http).lookup tc.function.name = some f ∧
      f tc.function.arguments = .ok (res tc)) :
    execToolCalls http tcs s =
      (.ok (),
        { messages := s.messages ++
            tcs.map (fun tc => toolResultMessage tc.id tc.function.name (res tc)),
          appended := s.appended ++
            tcs.map (fun tc => toolResultMessage tc.id tc.function.name (res tc)),
          gatewayCalls := s.gatewayCalls,
          toolExecutions := s.toolExecutions + tcs.length }) := by
  induction tcs generalizing s with
  | nil => simp [execToolCalls_nil]
  | cons tc rest ih =>
    obtain ⟨f, h1, h2⟩ := h tc (List.mem_cons_self tc rest)
    rw [execToolCalls_cons_ok http tc rest s f (res tc) h1 h2]
    rw [ih _ (fun tc htc => h tc (List.mem_cons_of_mem _ htc))]
    simp [LoopState.push]
    omega

/-- When every request of a turn resolves to a registered capability that
returns normally, the tool phase of that turn returns normally. -/
theorem execToolCalls_ok_of_executable (http : String → HttpResponse)
    (tcs : List ToolCall) (s : LoopState)
    (h : ∀ tc ∈ tcs, ∃ f v,
      (available_functions http).lookup tc.function.name = some f ∧
      f tc.function.arguments = .ok v) :
    ∃ s2, execToolCalls http tcs s = (.ok (), s2) := by
  induction tcs generalizing s with
  | nil => exact ⟨s, rfl⟩
  | cons tc rest ih =>
    obtain ⟨f, v, h1, h2⟩ := h tc (List.mem_cons_self tc rest)
    rw [execToolCalls_cons_ok http tc rest s f v h1 h2]
    exact ih _ (fun tc2 htc2 => h tc2 (List.mem_cons_of_mem _ htc2))

/-- When every gateway response requests at least one tool call and every
requested call resolves and executes normally, no iteration can take the
text-only exit: the loop runs its full fuel, performing one gateway call per
round, and ends with the iteration-limit string. -/
theorem runAux_exhausts (http : String → HttpResponse)
    (gateway : Nat → ResponseMessage) (fuel : Nat) (s : LoopState)
    (h : ∀ n, (gateway n).tool_calls ≠ [] ∧
      ∀ tc ∈ (gateway n).tool_calls, ∃ f v,
        (available_functions http).lookup tc.function.name = some f ∧
        f tc.function.arguments = .ok v) :
    (ReactAgent.runAux http gateway fuel s).result =
      .ok (some maxIterationsError) ∧
    (ReactAgent.runAux http gateway fuel s).state.gatewayCalls =
      s.gatewayCalls + fuel := by
  induction fuel generalizing s with
  | zero => simp [runAux_zero]
  | succ fuel ih =>
    obtain ⟨hne, hexec⟩ := h s.gatewayCalls
    cases hc : (gateway s.gatewayCalls).tool_calls with
    | nil => exact absurd hc hne
    | cons tc rest =>
      rw [hc] at hexec
    -- every call of the turn executes, so the tool phase returns normally
      obtain ⟨s2, hs2⟩ := execToolCalls_ok_of_executable http (tc :: rest)
        (afterAssistantMessage s (gateway s.gatewayCalls)) hexec
      obtain ⟨_, _, _, hg⟩ := execToolCalls_extends http (tc :: rest)
        (afterAssistantMessage s (gateway s.gatewayCalls))
      rw [hs2] at hg
      simp only [afterAssistantMessage, LoopState.push] at hg
      rw [runAux_succ_tools_ok http gateway fuel s s2 tc rest hc hs2]
      obtain ⟨hres, hcount⟩ := ih s2
      exact ⟨hres, by rw [hcount, hg]; omega⟩

/-- Exit shape of the loop: every run either propagates a Python exception,
or returns the content of a text-only response after appending it as the
final assistant message (the sole normal exit), or exhausts its full fuel
and returns the iteration-limit string. -/
theorem runAux_exit_cases (http : String → HttpResponse)
    (gateway : Nat → ResponseMessage) (fuel : Nat) (s : LoopState) :
    (∃ e, (ReactAgent.runAux http gateway fuel s).result = .error e) ∨
    (∃ c pre, (ReactAgent.runAux http gateway fuel s).result = .ok c ∧
      (ReactAgent.runAux http gateway fuel s).state.messages =
        pre ++ [{ role := "assistant", content := some c }]) ∨
    ((ReactAgent.runAux http gateway fuel s).result =
        .ok (some maxIterationsError) ∧
      (ReactAgent.runAux http gateway fuel s).state.gatewayCalls =
        s.gatewayCalls + fuel) := by
  induction fuel generalizing s with
  | zero => right; right; simp [runAux_zero]
  | succ fuel ih =>
    cases hc : (gateway s.gatewayCalls).tool_calls with
    | nil =>
      right; left
      rw [runAux_succ_text http gateway fuel s hc]
      exact ⟨(gateway s.gatewayCalls).content, s.messages, rfl,
        by simp [LoopState.push]⟩
    | cons tc rest =>
      cases hr : execToolCalls http (tc :: rest)
          (afterAssistantMessage s (gateway s.gatewayCalls)) with
      | mk r s2 =>
        cases r with
        | error e =>
          left
          rw [runAux_succ_tools_raise http gateway fuel s s2 tc rest e hc hr]
          exact ⟨e, rfl⟩
        | ok u =>
          cases u
          rw [runAux_succ_tools_ok http gateway fuel s s2 tc rest hc hr]
          rcases ih s2 with h | h | ⟨h1, h2⟩
          · exact Or.inl h
          · exact Or.inr (Or.inl h)
          · right; right
            refine ⟨h1, ?_⟩
            obtain ⟨_, _, _, hg⟩ := execToolCalls_extends http (tc :: rest)
              (afterAssistantMessage s (gateway s.gatewayCalls))
            rw [hr] at hg
            simp only [afterAssistantMessage, LoopState.push] at hg
            rw [h2]
            omega

/-! ### Step lemmas for the pure-tool variant -/

theorem PureTool.completion_no_tools (http : String → HttpResponse)
    (gateway : Nat → ResponseMessage) (messages : List Message)
    (h : (gateway 0).tool_calls = []) :
    PureTool.get_completion_from_messages http gateway messages =
      (.ok (gateway 0), ⟨messages, [], 1, 0⟩) := by
  simp [PureTool.get_completion_from_messages, h]

theorem PureTool.completion_unknown (http : String → HttpResponse)
    (gateway : Nat → ResponseMessage) (messages : List Message)
    (tc : ToolCall) (rest : List ToolCall)
    (h : (gateway 0).tool_calls = tc :: rest)
    (h1 : (PureTool.available_functions http).lookup tc.function.name = none) :
    PureTool.get_completion_from_messages http gateway messages =
      (.error (.keyError tc.function.name), ⟨messages, [], 1, 0⟩) := by
  simp [PureTool.get_completion_from_messages, h, h1]

theorem PureTool.completion_raise (http : String → HttpResponse)
    (gateway : Nat → ResponseMessage) (messages : List Message)
    (tc : ToolCall) (rest : List ToolCall)
    (f : Json → Except PyError Json) (e : PyError)
    (h : (gateway 0).tool_calls = tc :: rest)
    (h1 : (PureTool.available_functions http).lookup tc.function.name = some f)
    (h2 : f tc.function.arguments = .error e) :
    PureTool.get_completion_from_messages http gateway messages =
      (.error e, ⟨messages, [], 1, 1⟩) := by
  simp [PureTool.get_completion_from_messages, h, h1, h2]

theorem PureTool.completion_ok (http : String → HttpResponse)
    (gateway : Nat → ResponseMessage) (messages : List Message)
    (tc : ToolCall) (rest : List ToolCall)
    (f : Json → Except PyError Json) (v : Json)
    (h : (gateway 0).tool_calls = tc :: rest)
    (h1 : (PureTool.available_functions http).lookup tc.function.name = some f)
    (h2 : f tc.function.arguments = .ok v) :
    PureTool.get_completion_from_messages http gateway messages =
      (.ok (gateway 1),
        ⟨messages ++ [PureTool.firstCallAssistantMessage tc,
            toolResultMessage tc.id tc.function.name v],
          [PureTool.firstCallAssistantMessage tc,
            toolResultMessage tc.id tc.function.name v], 2, 1⟩) := by
  simp [PureTool.get_completion_from_messages, h, h1, h2, LoopState.push]

/-! ### Claims -/

/-- C6: The transcript is append-only during a single run: `ReactAgent.run`,
every intermediate iteration of its loop (`ReactAgent.runAux` from any
state), and the pure-tool `get_completion_from_messages` only append to the
message list, so the transcript present at the start is a prefix of the
transcript at every later point of the run. -/
theorem C6_transcript_append_only (agent : ReactAgent)
    (http : String → HttpResponse) (gateway : Nat → ResponseMessage)
    (messages : List Message) (fuel : Nat) (s : LoopState) :
    (∃ suffix, (ReactAgent.run agent http gateway messages).state.messages =
      messages ++ suffix) ∧
    (∃ suffix, (ReactAgent.runAux http gateway fuel s).state.messages =
      s.messages ++ suffix) ∧
    (∃ suffix,
      (PureTool.get_completion_from_messages http gateway messages).2.messages =
        messages ++ suffix) := by
  refine ⟨?_, ?_, ?_⟩
  · obtain ⟨e, hm, _⟩ :=
      runAux_extends http gateway agent.max_iterations ⟨messages, [], 0, 0⟩
    exact ⟨e, hm⟩
  · obtain ⟨e, hm, _⟩ := runAux_extends http gateway fuel s
    exact ⟨e, hm⟩
  · cases hc : (gateway 0).tool_calls with
    | nil =>
      rw [PureTool.completion_no_tools http gateway messages hc]
      exact ⟨[], by simp⟩
    | cons tc rest =>
      cases h1 : (PureTool.available_functions http).lookup tc.function.name with
      | none =>
        rw [PureTool.completion_unknown http gateway messages tc rest hc h1]
        exact ⟨[], by simp⟩
      | some f =>
        cases h2 : f tc.function.arguments with
        | error e =>
          rw [PureTool.completion_raise http gateway messages tc rest f e hc h1 h2]
          exact ⟨[], by simp⟩
        | ok v =>
          rw [PureTool.completion_ok http gateway messages tc rest f v hc h1 h2]
          exact ⟨_, rfl⟩

/-- C10: `ReactAgent.run` mutates the caller-supplied messages list in
place: in the embedding, where the in-place list is the threaded
`state.messages`, the list after the run — whichever way the run ends — is
exactly the original list of the caller followed by every message the run
appended, so the list held by the caller is the full resulting transcript. -/
theorem C10_run_mutates_caller_list (agent : ReactAgent)
    (http : String → HttpResponse) (gateway : Nat → ResponseMessage)
    (messages : List Message) :
    (ReactAgent.run agent http gateway messages).state.messages =
      messages ++ (ReactAgent.run agent http gateway messages).state.appended := by
  obtain ⟨e, hm, ha⟩ :=
    runAux_extends http gateway agent.max_iterations ⟨messages, [], 0, 0⟩
  have ha2 : (ReactAgent.runAux http gateway agent.max_iterations
      ⟨messages, [], 0, 0⟩).state.appended = e := by simpa using ha
  rw [ReactAgent.run, hm, ha2]

/-- C7: for every date string, when the lookup service responds with a
non-200 status, `get_name_for_day` returns the structured value
`{"date": date, "name": "Error fetching data"}` normally instead of raising
an exception. -/
theorem C7_get_name_for_day_error_marker (http : String → HttpResponse)
    (date : String)
    (h : (http ("https://svatkyapi.cz/api/day/" ++ date)).status_code ≠ 200) :
    get_name_for_day http date =
      .ok (.obj [("date", .str date), ("name", .str "Error fetching data")]) := by
  simp only [get_name_for_day, h, if_neg h, ite_false]
  rfl

/-- Witness for C7 at a concrete 404 response. -/
theorem C7_get_name_for_day_error_marker_witness :
    get_name_for_day (fun _ => ⟨404, Json.null⟩) "2024-10-28" =
      .ok (.obj [("date", .str "2024-10-28"),
        ("name", .str "Error fetching data")]) :=
  C7_get_name_for_day_error_marker (fun _ => ⟨404, Json.null⟩) "2024-10-28"
    (by decide)

/-- C8: for every date string, when the week-lookup service responds with
status 200 and a body decoding to a list, `get_names_for_week` raises (the
decoded list has no `map` attribute); only the non-200 branch returns
normally, with the error-marker value. -/
theorem C8_get_names_for_week_raises_on_success (http : String → HttpResponse)
    (date : String) :
    ((http ("https://svatkyapi.cz/api/week/" ++ date)).status_code = 200 →
      ∀ xs, (http ("https://svatkyapi.cz/api/week/" ++ date)).body = .arr xs →
      get_names_for_week http date = .error (.attributeError "list")) ∧
    ((http ("https://svatkyapi.cz/api/week/" ++ date)).status_code ≠ 200 →
      get_names_for_week http date =
        .ok (.obj [("date", .str date),
          ("weekData", .str "Error fetching data")])) := by
  constructor
  · intro h xs hb
    simp [get_names_for_week, h, hb, Json.pyAttrMap]
  · intro h
    simp only [get_names_for_week, h, if_neg h, ite_false]
    rfl

/-- Witness for C8: a 200 response whose body is a (week) list makes the
tool raise, and a 503 response returns the marker value. -/
theorem C8_get_names_for_week_raises_on_success_witness :
    (get_names_for_week
      (fun _ => ⟨200, .arr [.obj [("name", .str "Lukas")]]⟩) "2024-10-28" =
        .error (.attributeError "list")) ∧
    (get_names_for_week (fun _ => ⟨503, .null⟩) "2024-10-28" =
      .ok (.obj [("date", .str "2024-10-28"),
        ("weekData", .str "Error fetching data")])) :=
  ⟨(C8_get_names_for_week_raises_on_success
      (fun _ => ⟨200, .arr [.obj [("name", .str "Lukas")]]⟩) "2024-10-28").1
      rfl [.obj [("name", .str "Lukas")]] rfl,
   (C8_get_names_for_week_raises_on_success
      (fun _ => ⟨503, .null⟩) "2024-10-28").2 (by decide)⟩

/-- C4: when the gateway response carries zero tool-invocation requests,
`ReactAgent.run` appends the text of that response as a final assistant message
and returns that exact text; on the first call this takes exactly one
gateway call and zero tool executions. Moreover this is the sole normal
exit: every run either propagates an exception, or ends by appending a
final assistant message whose content it returns, or exhausts the full
iteration bound and returns the limit string. -/
theorem C4_text_only_response_is_sole_normal_exit (agent : ReactAgent)
    (http : String → HttpResponse) (gateway : Nat → ResponseMessage)
    (messages : List Message) (h : 0 < agent.max_iterations) :
    ((gateway 0).tool_calls = [] →
      ReactAgent.run agent http gateway messages =
        ⟨.ok (gateway 0).content,
          ⟨messages ++ [{ role := "assistant", content := some (gateway 0).content }],
            [{ role := "assistant", content := some (gateway 0).content }], 1, 0⟩⟩) ∧
    ((∃ e, (ReactAgent.run agent http gateway messages).result = .error e) ∨
      (∃ c pre, (ReactAgent.run agent http gateway messages).result = .ok c ∧
        (ReactAgent.run agent http gateway messages).state.messages =
          pre ++ [{ role := "assistant", content := some c }]) ∨
      ((ReactAgent.run agent http gateway messages).result =
          .ok (some maxIterationsError) ∧
        (ReactAgent.run agent http gateway messages).state.gatewayCalls =
          agent.max_iterations)) := by
  constructor
  · intro hc
    obtain ⟨fuel, hf⟩ : ∃ fuel, agent.max_iterations = fuel + 1 :=
      ⟨agent.max_iterations - 1, by omega⟩
    rw [ReactAgent.run, hf,
      runAux_succ_text http gateway fuel ⟨messages, [], 0, 0⟩ hc]
    rfl
  · have hcases :=
      runAux_exit_cases http gateway agent.max_iterations ⟨messages, [], 0, 0⟩
    rw [ReactAgent.run]
    simpa using hcases

/-- Witness for C4: a gateway whose first response is plain text makes the
run return that text after one gateway call and zero tool executions. -/
theorem C4_text_only_response_is_sole_normal_exit_witness :
    ReactAgent.run {} (fun _ => ⟨200, Json.null⟩)
        (fun _ => ⟨some "Hello", []⟩) [] =
      ⟨.ok (some "Hello"),
        ⟨[{ role := "assistant", content := some (some "Hello") }],
          [{ role := "assistant", content := some (some "Hello") }], 1, 0⟩⟩ :=
  (C4_text_only_response_is_sole_normal_exit {} (fun _ => ⟨200, Json.null⟩)
    (fun _ => ⟨some "Hello", []⟩) [] (by decide)).1 rfl

/-- C2 (amended): when the first tool-invocation request of a turn names a
tool absent from `available_functions`, the dict index raises KeyError and
the exception propagates: the run aborts with a thrown fault, no synthetic
error ToolResult is appended, and no subsequent gateway call occurs — the
opposite of synthesizing an error payload and continuing. -/
theorem C2_unknown_tool_aborts_run (agent : ReactAgent)
    (http : String → HttpResponse) (gateway : Nat → ResponseMessage)
    (messages : List Message) (tc : ToolCall) (rest : List ToolCall)
    (hpos : 0 < agent.max_iterations)
    (hg : (gateway 0).tool_calls = tc :: rest)
    (hl : (available_functions http).lookup tc.function.name = none) :
    ReactAgent.run agent http gateway messages =
      ⟨.error (.keyError tc.function.name),
        ⟨messages ++ [assistantToolCallsMessage (gateway 0)],
          [assistantToolCallsMessage (gateway 0)], 1, 0⟩⟩ := by
  obtain ⟨fuel, hf⟩ : ∃ fuel, agent.max_iterations = fuel + 1 :=
    ⟨agent.max_iterations - 1, by omega⟩
  have he := execToolCalls_cons_unknown http tc rest
    (afterAssistantMessage ⟨messages, [], 0, 0⟩ (gateway 0)) hl
  rw [ReactAgent.run, hf,
    runAux_succ_tools_raise http gateway fuel ⟨messages, [], 0, 0⟩ _ tc rest _ hg he]
  rfl

/-- Witness for C2 (amended) at a concrete unregistered tool name. -/
theorem C2_unknown_tool_aborts_run_witness :
    ReactAgent.run {} (fun _ => ⟨200, Json.null⟩)
        (fun _ => ⟨some "calling a tool",
          [⟨"call_7", "function",
            ⟨"nonexistent_tool", Json.obj [("date", Json.str "2024-10-28")]⟩⟩]⟩) [] =
      ⟨.error (.keyError "nonexistent_tool"),
        ⟨[assistantToolCallsMessage ⟨some "calling a tool",
            [⟨"call_7", "function",
              ⟨"nonexistent_tool", Json.obj [("date", Json.str "2024-10-28")]⟩⟩]⟩],
          [assistantToolCallsMessage ⟨some "calling a tool",
            [⟨"call_7", "function",
              ⟨"nonexistent_tool", Json.obj [("date", Json.str "2024-10-28")]⟩⟩]⟩],
          1, 0⟩⟩ :=
  C2_unknown_tool_aborts_run {} (fun _ => ⟨200, Json.null⟩)
    (fun _ => ⟨some "calling a tool",
      [⟨"call_7", "function",
        ⟨"nonexistent_tool", Json.obj [("date", Json.str "2024-10-28")]⟩⟩]⟩)
    [] _ [] (by decide) rfl rfl

/-- Counterexample to C2 as stated: requesting the unregistered tool
`nonexistent_tool` does not yield a synthetic error ToolResult and a
subsequent gateway call — the run aborts with a thrown KeyError after a
single gateway call, the transcript gaining only the assistant message and
no `tool` message. -/
theorem C2_counterexample :
    (ReactAgent.run {} (fun _ => ⟨200, Json.null⟩)
        (fun _ => ⟨some "calling a tool",
          [⟨"call_7", "function",
            ⟨"nonexistent_tool", Json.obj [("date", Json.str "2024-10-28")]⟩⟩]⟩)
        []).result = .error (.keyError "nonexistent_tool") ∧
    (ReactAgent.run {} (fun _ => ⟨200, Json.null⟩)
        (fun _ => ⟨some "calling a tool",
          [⟨"call_7", "function",
            ⟨"nonexistent_tool", Json.obj [("date", Json.str "2024-10-28")]⟩⟩]⟩)
        []).state.gatewayCalls = 1 ∧
    ∀ m ∈ (ReactAgent.run {} (fun _ => ⟨200, Json.null⟩)
        (fun _ => ⟨some "calling a tool",
          [⟨"call_7", "function",
            ⟨"nonexistent_tool", Json.obj [("date", Json.str "2024-10-28")]⟩⟩]⟩)
        []).state.messages, m.role ≠ "tool" := by
  refine ⟨rfl, rfl, ?_⟩
  intro m hm
  rw [show (ReactAgent.run {} (fun _ => ⟨200, Json.null⟩)
      (fun _ => ⟨some "calling a tool",
        [⟨"call_7", "function",
          ⟨"nonexistent_tool", Json.obj [("date", Json.str "2024-10-28")]⟩⟩]⟩)
      []).state.messages =
    [assistantToolCallsMessage ⟨some "calling a tool",
      [⟨"call_7", "function",
        ⟨"nonexistent_tool", Json.obj [("date", Json.str "2024-10-28")]⟩⟩]⟩]
    from rfl] at hm
  simp only [List.mem_singleton] at hm
  rw [hm]
  simp [assistantToolCallsMessage]

/-- C1 (amended): `ReactAgent.run` always terminates within the
`max_iterations = 10` bound — at most 10 gateway calls for every sequence of
gateway responses — and when every response requests executable tool calls
the run performs all 10 iterations and returns the fixed string
`maxIterationsError`. That exit returns a plain string of the same type as
a successful textual answer (see the counterexample for the collision), not
a failure value of a distinct kind. -/
theorem C1_run_iteration_bound (http : String → HttpResponse)
    (gateway : Nat → ResponseMessage) (messages : List Message)
    (h : ∀ n, (gateway n).tool_calls ≠ [] ∧
      ∀ tc ∈ (gateway n).tool_calls, ∃ f v,
        (available_functions http).lookup tc.function.name = some f ∧
        f tc.function.arguments = .ok v) :
    (∀ gateway2 : Nat → ResponseMessage,
      (ReactAgent.run {} http gateway2 messages).state.gatewayCalls ≤ 10) ∧
    (ReactAgent.run {} http gateway messages).result =
      .ok (some maxIterationsError) ∧
    (ReactAgent.run {} http gateway messages).state.gatewayCalls = 10 := by
  refine ⟨?_, ?_, ?_⟩
  · intro gateway2
    exact runAux_gatewayCalls_le http gateway2 10 ⟨messages, [], 0, 0⟩
  · exact (runAux_exhausts http gateway 10 ⟨messages, [], 0, 0⟩ h).1
  · exact (runAux_exhausts http gateway 10 ⟨messages, [], 0, 0⟩ h).2

/-- Witness for C1 (amended): a gateway that always requests one executable
`get_name_for_day` call drives the run through all 10 iterations to the
iteration-limit string. -/
theorem C1_run_iteration_bound_witness :
    (ReactAgent.run {} (fun _ => ⟨200, Json.obj [("name", Json.str "Lukas")]⟩)
        (fun _ => ⟨none, [⟨"call_1", "function",
          ⟨"get_name_for_day", Json.obj [("date", Json.str "2024-10-28")]⟩⟩]⟩)
        []).result = .ok (some maxIterationsError) ∧
    (ReactAgent.run {} (fun _ => ⟨200, Json.obj [("name", Json.str "Lukas")]⟩)
        (fun _ => ⟨none, [⟨"call_1", "function",
          ⟨"get_name_for_day", Json.obj [("date", Json.str "2024-10-28")]⟩⟩]⟩)
        []).state.gatewayCalls = 10 := by
  have h := C1_run_iteration_bound
    (fun _ => ⟨200, Json.obj [("name", Json.str "Lukas")]⟩)
    (fun _ => ⟨none, [⟨"call_1", "function",
      ⟨"get_name_for_day", Json.obj [("date", Json.str "2024-10-28")]⟩⟩]⟩)
    []
    (by
      intro n
      refine ⟨by simp, ?_⟩
      intro tc htc
      simp only [List.mem_singleton] at htc
      rw [htc]
      exact ⟨_, _, rfl, rfl⟩)
  exact ⟨h.2.1, h.2.2⟩

/-- Counterexample to C1 as stated: the iteration-limit exit is not an
explicit failure value distinguishable from a successful textual answer.
A gateway whose first response is the plain text
`"Error: Maximum iterations reached without getting a final answer."` makes
the run succeed with the very same return value that a run exhausting all
10 iterations produces, so the two terminal outcomes are equal values. -/
theorem C1_counterexample :
    (ReactAgent.run {} (fun _ => ⟨200, Json.obj [("name", Json.str "Lukas")]⟩)
        (fun _ => ⟨some maxIterationsError, []⟩) []).result =
      (ReactAgent.run {} (fun _ => ⟨200, Json.obj [("name", Json.str "Lukas")]⟩)
        (fun _ => ⟨none, [⟨"call_1", "function",
          ⟨"get_name_for_day", Json.obj [("date", Json.str "2024-10-28")]⟩⟩]⟩)
        []).result ∧
    (ReactAgent.run {} (fun _ => ⟨200, Json.obj [("name", Json.str "Lukas")]⟩)
        (fun _ => ⟨some maxIterationsError, []⟩) []).state.gatewayCalls = 1 ∧
    (ReactAgent.run {} (fun _ => ⟨200, Json.obj [("name", Json.str "Lukas")]⟩)
        (fun _ => ⟨none, [⟨"call_1", "function",
          ⟨"get_name_for_day", Json.obj [("date", Json.str "2024-10-28")]⟩⟩]⟩)
        []).state.gatewayCalls = 10 :=
  ⟨rfl, rfl, rfl⟩

/-- C3: for an assistant turn whose requests all resolve and execute
normally, `ReactAgent.run` executes all N requests in emission order and
appends exactly N `tool` messages — each tagged with its originating call
id and carrying the verbatim JSON serialization of the value the capability
returned — in that same order: the tool phase maps the request list one-to-one
onto `toolResultMessage` entries, and at run level those N messages follow
the assistant message in the transcript. -/
theorem C3_tool_calls_executed_in_order (http : String → HttpResponse)
    (tcs : List ToolCall) (res : ToolCall → Json)
    (h : ∀ tc ∈ tcs, ∃ f,
      (available_functions http).lookup tc.function.name = some f ∧
      f tc.function.arguments = .ok (res tc)) :
    (∀ s : LoopState, execToolCalls http tcs s =
      (.ok (),
        { messages := s.messages ++ tcs.map (fun tc =>
            toolResultMessage tc.id tc.function.name (res tc)),
          appended := s.appended ++ tcs.map (fun tc =>
            toolResultMessage tc.id tc.function.name (res tc)),
          gatewayCalls := s.gatewayCalls,
          toolExecutions := s.toolExecutions + tcs.length })) ∧
    (∀ (agent : ReactAgent) (gateway : Nat → ResponseMessage)
      (messages : List Message), 0 < agent.max_iterations →
      (gateway 0).tool_calls = tcs → tcs ≠ [] →
      ∃ later, (ReactAgent.run agent http gateway messages).state.messages =
        messages ++ assistantToolCallsMessage (gateway 0) ::
          (tcs.map (fun tc =>
            toolResultMessage tc.id tc.function.name (res tc)) ++ later)) := by
  constructor
  · intro s
    exact execToolCalls_all_ok http tcs s res h
  · intro agent gateway messages hpos hg hne
    obtain ⟨fuel, hf⟩ : ∃ fuel, agent.max_iterations = fuel + 1 :=
      ⟨agent.max_iterations - 1, by omega⟩
    cases tcs with
    | nil => exact absurd rfl hne
    | cons tc rest =>
      have hexec := execToolCalls_all_ok http (tc :: rest)
        (afterAssistantMessage ⟨messages, [], 0, 0⟩ (gateway 0)) res h
      rw [ReactAgent.run, hf,
        runAux_succ_tools_ok http gateway fuel ⟨messages, [], 0, 0⟩ _ tc rest hg hexec]
      obtain ⟨e2, hm2, _⟩ := runAux_extends http gateway fuel _
      rw [hm2]
      refine ⟨e2, ?_⟩
      simp [afterAssistantMessage, LoopState.push]

/-- Witness for C3: a turn of three `get_name_for_day` requests appends the
three correlated `tool` messages in emission order. -/
theorem C3_tool_calls_executed_in_order_witness :
    execToolCalls (fun _ => ⟨200, Json.obj [("name", Json.str "Lukas")]⟩)
        [⟨"call_1", "function",
          ⟨"get_name_for_day", Json.obj [("date", Json.str "2024-10-28")]⟩⟩,
         ⟨"call_2", "function",
          ⟨"get_name_for_day", Json.obj [("date", Json.str "2024-10-28")]⟩⟩,
         ⟨"call_3", "function",
          ⟨"get_name_for_day", Json.obj [("date", Json.str "2024-10-28")]⟩⟩]
        ⟨[], [], 0, 0⟩ =
      (.ok (),
        { messages :=
            [toolResultMessage "call_1" "get_name_for_day"
              (Json.obj [("date", Json.str "2024-10-28"), ("name", Json.str "Lukas")]),
             toolResultMessage "call_2" "get_name_for_day"
              (Json.obj [("date", Json.str "2024-10-28"), ("name", Json.str "Lukas")]),
             toolResultMessage "call_3" "get_name_for_day"
              (Json.obj [("date", Json.str "2024-10-28"), ("name", Json.str "Lukas")])],
          appended :=
            [toolResultMessage "call_1" "get_name_for_day"
              (Json.obj [("date", Json.str "2024-10-28"), ("name", Json.str "Lukas")]),
             toolResultMessage "call_2" "get_name_for_day"
              (Json.obj [("date", Json.str "2024-10-28"), ("name", Json.str "Lukas")]),
             toolResultMessage "call_3" "get_name_for_day"
              (Json.obj [("date", Json.str "2024-10-28"), ("name", Json.str "Lukas")])],
          gatewayCalls := 0, toolExecutions := 3 }) :=
  (C3_tool_calls_executed_in_order
    (fun _ => ⟨200, Json.obj [("name", Json.str "Lukas")]⟩)
    [⟨"call_1", "function",
      ⟨"get_name_for_day", Json.obj [("date", Json.str "2024-10-28")]⟩⟩,
     ⟨"call_2", "function",
      ⟨"get_name_for_day", Json.obj [("date", Json.str "2024-10-28")]⟩⟩,
     ⟨"call_3", "function",
      ⟨"get_name_for_day", Json.obj [("date", Json.str "2024-10-28")]⟩⟩]
    (fun _ => Json.obj [("date", Json.str "2024-10-28"), ("name", Json.str "Lukas")])
    (by
      intro tc htc
      simp only [List.mem_cons, List.not_mem_nil, or_false] at htc
      rcases htc with h1 | h1 | h1 <;> rw [h1] <;> exact ⟨_, rfl, rfl⟩)).1
    ⟨[], [], 0, 0⟩

/-- C5 (amended): in `ReactAgent.run`, the single assistant message appended
for a turn carrying requests is `assistantToolCallsMessage`, which records
all requests of the turn and preserves the stated reasoning text of the
model (the `content` key is present, holding the response content). In the
pure-tool `get_completion_from_messages`, by contrast, the appended
assistant message is `firstCallAssistantMessage`: it records only the first
request and carries no `content` key at all, dropping the reasoning text. -/
theorem C5_assistant_message_records_requests (agent : ReactAgent)
    (http : String → HttpResponse) (gateway : Nat → ResponseMessage)
    (messages : List Message) (tc : ToolCall) (rest : List ToolCall)
    (hpos : 0 < agent.max_iterations)
    (hg : (gateway 0).tool_calls = tc :: rest) :
    (∃ later, (ReactAgent.run agent http gateway messages).state.messages =
      messages ++ assistantToolCallsMessage (gateway 0) :: later) ∧
    (∀ f v, (PureTool.available_functions http).lookup tc.function.name = some f →
      f tc.function.arguments = .ok v →
      (PureTool.get_completion_from_messages http gateway messages).2.messages =
        messages ++ [PureTool.firstCallAssistantMessage tc,
          toolResultMessage tc.id tc.function.name v]) := by
  constructor
  · obtain ⟨fuel, hf⟩ : ∃ fuel, agent.max_iterations = fuel + 1 :=
      ⟨agent.max_iterations - 1, by omega⟩
    cases hr : execToolCalls http (tc :: rest)
        (afterAssistantMessage ⟨messages, [], 0, 0⟩ (gateway 0)) with
    | mk r s2 =>
      obtain ⟨e1, hm1, _, _⟩ := execToolCalls_extends http (tc :: rest)
        (afterAssistantMessage ⟨messages, [], 0, 0⟩ (gateway 0))
      rw [hr] at hm1
      simp only [afterAssistantMessage, LoopState.push] at hm1
      cases r with
      | error e =>
        rw [ReactAgent.run, hf,
          runAux_succ_tools_raise http gateway fuel ⟨messages, [], 0, 0⟩ s2 tc rest e hg hr]
        refine ⟨e1, ?_⟩
        rw [show (⟨Except.error e, s2⟩ : RunOutcome).state.messages = s2.messages from rfl,
          hm1]
        simp [List.append_assoc]
      | ok u =>
        cases u
        rw [ReactAgent.run, hf,
          runAux_succ_tools_ok http gateway fuel ⟨messages, [], 0, 0⟩ s2 tc rest hg hr]
        obtain ⟨e2, hm2, _⟩ := runAux_extends http gateway fuel s2
        refine ⟨e1 ++ e2, ?_⟩
        rw [hm2, hm1]
        simp [List.append_assoc]
  · intro f v h1 h2
    rw [PureTool.completion_ok http gateway messages tc rest f v hg h1 h2]

/-- Witness for C5 (amended): the pure-tool variant at a concrete executable
request appends the content-free single-request assistant message and the
correlated tool result. -/
theorem C5_assistant_message_records_requests_witness :
    (PureTool.get_completion_from_messages
        (fun _ => ⟨200, Json.obj [("name", Json.str "Lukas")]⟩)
        (fun n => if n = 0 then
          ⟨some "Thinking",
            [⟨"call_9", "function",
              ⟨"get_name_for_day", Json.obj [("date", Json.str "2024-10-28")]⟩⟩]⟩
          else ⟨some "done", []⟩)
        []).2.messages =
      [] ++ [PureTool.firstCallAssistantMessage
          ⟨"call_9", "function",
            ⟨"get_name_for_day", Json.obj [("date", Json.str "2024-10-28")]⟩⟩,
        toolResultMessage "call_9" "get_name_for_day"
          (Json.obj [("date", Json.str "2024-10-28"), ("name", Json.str "Lukas")])] :=
  (C5_assistant_message_records_requests {}
    (fun _ => ⟨200, Json.obj [("name", Json.str "Lukas")]⟩)
    (fun n => if n = 0 then
      ⟨some "Thinking",
        [⟨"call_9", "function",
          ⟨"get_name_for_day", Json.obj [("date", Json.str "2024-10-28")]⟩⟩]⟩
      else ⟨some "done", []⟩)
    [] ⟨"call_9", "function",
      ⟨"get_name_for_day", Json.obj [("date", Json.str "2024-10-28")]⟩⟩ []
    (by decide) rfl).2 _ _ rfl rfl

/-- Counterexample to C5 as stated: in the pure-tool source cited by the
claim, a response carrying reasoning text and two requests gets an assistant
message with no `content` key (the reasoning text is dropped) holding only
the first of the two requests. -/
theorem C5_counterexample :
    (PureTool.get_completion_from_messages
        (fun _ => ⟨200, Json.obj [("name", Json.str "Lukas")]⟩)
        (fun _ => ⟨some "Let me think",
          [⟨"call_1", "function",
            ⟨"get_name_for_day", Json.obj [("date", Json.str "2024-10-28")]⟩⟩,
           ⟨"call_2", "function",
            ⟨"get_name_for_day", Json.obj [("date", Json.str "2024-10-30")]⟩⟩]⟩)
        []).2.messages =
      [{ role := "assistant", content := none,
          tool_calls := some
            [⟨"call_1", "function",
              ⟨"get_name_for_day", Json.obj [("date", Json.str "2024-10-28")]⟩⟩],
          tool_call_id := none, name := none },
        toolResultMessage "call_1" "get_name_for_day"
          (Json.obj [("date", Json.str "2024-10-28"), ("name", Json.str "Lukas")])] ∧
    ((fun _ => (⟨some "Let me think",
          [⟨"call_1", "function",
            ⟨"get_name_for_day", Json.obj [("date", Json.str "2024-10-28")]⟩⟩,
           ⟨"call_2", "function",
            ⟨"get_name_for_day", Json.obj [("date", Json.str "2024-10-30")]⟩⟩]⟩ :
        ResponseMessage)) (0 : Nat)).content = some "Let me think" ∧
    ((fun _ => (⟨some "Let me think",
          [⟨"call_1", "function",
            ⟨"get_name_for_day", Json.obj [("date", Json.str "2024-10-28")]⟩⟩,
           ⟨"call_2", "function",
            ⟨"get_name_for_day", Json.obj [("date", Json.str "2024-10-30")]⟩⟩]⟩ :
        ResponseMessage)) (0 : Nat)).tool_calls.length = 2 :=
  ⟨rfl, rfl, rfl⟩

/-- C9: in the pure-tool variant, `get_completion_from_messages` performs at
most one tool execution per run — only the first element of the response
`tool_calls` list, the rest never influencing the outcome — and at most one
tool round: when the first response carries requests and the first executes,
the second gateway response is returned as-is (for every gateway, hence even
when that second response itself carries tool-invocation requests). -/
theorem C9_pure_tool_single_round (http : String → HttpResponse)
    (gateway : Nat → ResponseMessage) (messages : List Message) :
    ((PureTool.get_completion_from_messages http gateway messages).2.toolExecutions ≤ 1) ∧
    ((gateway 0).tool_calls = [] →
      PureTool.get_completion_from_messages http gateway messages =
        (.ok (gateway 0), ⟨messages, [], 1, 0⟩)) ∧
    (∀ tc rest f v, (gateway 0).tool_calls = tc :: rest →
      (PureTool.available_functions http).lookup tc.function.name = some f →
      f tc.function.arguments = .ok v →
      PureTool.get_completion_from_messages http gateway messages =
        (.ok (gateway 1),
          ⟨messages ++ [PureTool.firstCallAssistantMessage tc,
              toolResultMessage tc.id tc.function.name v],
            [PureTool.firstCallAssistantMessage tc,
              toolResultMessage tc.id tc.function.name v], 2, 1⟩)) := by
  refine ⟨?_, ?_, ?_⟩
  · cases hc : (gateway 0).tool_calls with
    | nil =>
      rw [PureTool.completion_no_tools http gateway messages hc]
      exact Nat.zero_le 1
    | cons tc rest =>
      cases h1 : (PureTool.available_functions http).lookup tc.function.name with
      | none =>
        rw [PureTool.completion_unknown http gateway messages tc rest hc h1]
        exact Nat.zero_le 1
      | some f =>
        cases h2 : f tc.function.arguments with
        | error e =>
          rw [PureTool.completion_raise http gateway messages tc rest f e hc h1 h2]
        | ok v =>
          rw [PureTool.completion_ok http gateway messages tc rest f v hc h1 h2]
  · intro hc
    exact PureTool.completion_no_tools http gateway messages hc
  · intro tc rest f v hc h1 h2
    exact PureTool.completion_ok http gateway messages tc rest f v hc h1 h2

/-- Witness for C9: the first response carries two requests, the second
response itself carries a request; only the first request of the first
response is executed and the second response is returned as-is. -/
theorem C9_pure_tool_single_round_witness :
    PureTool.get_completion_from_messages
        (fun _ => ⟨200, Json.obj [("name", Json.str "Lukas")]⟩)
        (fun n => if n = 0 then
          ⟨some "round one",
            [⟨"call_1", "function",
              ⟨"get_name_for_day", Json.obj [("date", Json.str "2024-10-28")]⟩⟩,
             ⟨"call_2", "function",
              ⟨"get_name_for_day", Json.obj [("date", Json.str "2024-10-30")]⟩⟩]⟩
          else ⟨none,
            [⟨"call_3", "function",
              ⟨"get_name_for_day", Json.obj [("date", Json.str "2024-10-31")]⟩⟩]⟩)
        [] =
      (.ok ⟨none,
          [⟨"call_3", "function",
            ⟨"get_name_for_day", Json.obj [("date", Json.str "2024-10-31")]⟩⟩]⟩,
        ⟨[PureTool.firstCallAssistantMessage
            ⟨"call_1", "function",
              ⟨"get_name_for_day", Json.obj [("date", Json.str "2024-10-28")]⟩⟩,
          toolResultMessage "call_1" "get_name_for_day"
            (Json.obj [("date", Json.str "2024-10-28"), ("name", Json.str "Lukas")])],
         [PureTool.firstCallAssistantMessage
            ⟨"call_1", "function",
              ⟨"get_name_for_day", Json.obj [("date", Json.str "2024-10-28")]⟩⟩,
          toolResultMessage "call_1" "get_name_for_day"
            (Json.obj [("date", Json.str "2024-10-28"), ("name", Json.str "Lukas")])],
         2, 1⟩) :=
  (C9_pure_tool_single_round
    (fun _ => ⟨200, Json.obj [("name", Json.str "Lukas")]⟩)
    (fun n => if n = 0 then
      ⟨some "round one",
        [⟨"call_1", "function",
          ⟨"get_name_for_day", Json.obj [("date", Json.str "2024-10-28")]⟩⟩,
         ⟨"call_2", "function",
          ⟨"get_name_for_day", Json.obj [("date", Json.str "2024-10-30")]⟩⟩]⟩
      else ⟨none,
        [⟨"call_3", "function",
          ⟨"get_name_for_day", Json.obj [("date", Json.str "2024-10-31")]⟩⟩]⟩)
    []).2.2 _ _ _ _ rfl rfl rfl
